import Mathlib

/-!
Verification of the MetalStock Pro stock-consumption and geometry engine.

Shallow embedding of the core subsystem of the `backend_metalStock`
repository: the stock decrement/restore algorithm of the project
controller, the stock aggregation of `models/StockItem.js`, the project
cost reconciliation of `models/Project.js` and the project-material
totals of `models/ProjectMaterial.js`, together with the geometric
weight/volume calculator (the "MetalMath" engine).

Monetary amounts, quantities and weights are modelled as rationals
(JavaScript numbers, with `Math.round`-based 2-decimal rounding made
exact); the geometry functions, which involve `π` and `√3`, are modelled
over the reals.
-/

deriving instance DecidableEq for Except

namespace MetalStock

/-- JavaScript `Math.round`: round half toward positive infinity,
`Math.round(x) = ⌊x + 0.5⌋`. -/
def jsRound (x : ℚ) : ℤ := ⌊x + 1 / 2⌋

/-- The repository's pervasive `Math.round(x * 100) / 100` idiom:
round to 2 decimal places. -/
def round2 (x : ℚ) : ℚ := (jsRound (x * 100) : ℚ) / 100

/-! ## Stock model (`models/StockItem.js`) -/

/-- `stockItemSchema.type` enum `['FULL_BAR', 'OFFCUT', 'BOX']`. -/
inductive LotType where
  | FULL_BAR
  | OFFCUT
  | BOX
  deriving DecidableEq, Repr

/-- `stockItemSchema.status` enum `['available', 'reserved', 'consumed']`. -/
inductive LotStatus where
  | available
  | reserved
  | consumed
  deriving DecidableEq, Repr

/-- One `StockItem` document (a physical stock lot).  MongoDB `_id`s are
modelled as naturals. -/
structure StockItem where
  id : ℕ
  product : ℕ
  type : LotType
  quantity : ℚ
  lengthMM : ℚ
  calculatedWeight : ℚ
  status : LotStatus
  deriving DecidableEq, Repr

/-- `stockItemSchema.methods.calculateWeight`: when the owning product has
`weightPerMeter > 0`, set `calculatedWeight` to
`(lengthMM / 1000) * weightPerMeter * quantity`, rounded to 2 decimals;
otherwise leave the item unchanged.  The `pre('save')` hook runs this
whenever `quantity` or `lengthMM` was modified (always the case at the
call sites modelled here), so saving an item is modelled as applying this
function. -/
def StockItem.calculateWeight (weightPerMeter : ℚ) (it : StockItem) : StockItem :=
  if 0 < weightPerMeter then
    { it with calculatedWeight := round2 (it.lengthMM / 1000 * weightPerMeter * it.quantity) }
  else it

/-- Result shape of `StockItem.getTotalStock`. -/
structure StockTotals where
  totalQuantity : ℚ
  totalWeight : ℚ
  totalLength : ℚ
  deriving DecidableEq, Repr

/-- `stockItemSchema.statics.getTotalStock`: aggregate over the product's
items with `status: 'available'`, summing `quantity`, `calculatedWeight`
and `quantity * lengthMM`; an empty match yields all zeroes. -/
def getTotalStock (items : List StockItem) (pid : ℕ) : StockTotals :=
  let ms := items.filter fun i => decide (i.product = pid) && decide (i.status = .available)
  { totalQuantity := (ms.map (·.quantity)).sum
    totalWeight := (ms.map (·.calculatedWeight)).sum
    totalLength := (ms.map fun i => i.quantity * i.lengthMM).sum }

/-! ## Allocation engine (`decrementStock` in the project controller) -/

/-- MongoDB sorts the `type` field descending (`{ type: -1 }`) over the
stored enum strings, and `'OFFCUT' > 'FULL_BAR' > 'BOX'` in lexicographic
string order, so the descending order is OFFCUT, FULL_BAR, BOX.  This key
assigns each type its position in that descending order. -/
def typeSortKey : LotType → ℕ
  | .OFFCUT => 0
  | .FULL_BAR => 1
  | .BOX => 2

/-- The `sort({ type: -1, calculatedWeight: 1 })` ordering of
`decrementStock`: by `type` descending (offcuts first), then by
`calculatedWeight` ascending. -/
def lotLE (a b : StockItem) : Prop :=
  typeSortKey a.type < typeSortKey b.type ∨
    (typeSortKey a.type = typeSortKey b.type ∧ a.calculatedWeight ≤ b.calculatedWeight)

instance : DecidableRel lotLE := fun a b => by
  unfold lotLE
  infer_instance

/-- `const itemStock = item.calculatedWeight || item.quantity` — the
deductible amount a lot offers (JavaScript falsiness of `0`). -/
def itemStockOf (i : StockItem) : ℚ :=
  if i.calculatedWeight ≠ 0 then i.calculatedWeight else i.quantity

/-- `const toDeduct = Math.min(remaining, itemStock)`. -/
def deductAmount (remaining : ℚ) (item : StockItem) : ℚ := min remaining (itemStockOf item)

/-- The mutation step of the `decrementStock` loop body: for a
weight-based item, reduce `quantity` by the fraction
`toDeduct / calculatedWeight` and `calculatedWeight` by `toDeduct`
directly, both clamped at 0; for a unit-based item, reduce `quantity` by
`toDeduct`. -/
def applyDeduction (remaining : ℚ) (item : StockItem) : StockItem :=
  let toDeduct := deductAmount remaining item
  if item.calculatedWeight ≠ 0 then
    { item with
      quantity := max 0 (item.quantity - item.quantity * (toDeduct / item.calculatedWeight))
      calculatedWeight := max 0 (item.calculatedWeight - toDeduct) }
  else
    { item with quantity := max 0 (item.quantity - toDeduct) }

/-- `if (item.quantity <= 0) item.status = 'consumed'`. -/
def markConsumed (item : StockItem) : StockItem :=
  if item.quantity ≤ 0 then { item with status := .consumed } else item

/-- One iteration of the `decrementStock` loop body: deduct
`min(remaining, itemStock)` from the lot, mark it `consumed` when its
quantity reaches `<= 0`, and save it (which re-derives
`calculatedWeight` via the `pre('save')` hook).  Returns the new
`remaining` and the saved lot. -/
def deductItem (weightPerMeter remaining : ℚ) (item : StockItem) : ℚ × StockItem :=
  (remaining - deductAmount remaining item,
    StockItem.calculateWeight weightPerMeter (markConsumed (applyDeduction remaining item)))

/-- The `for (const item of stockItems)` walk of `decrementStock`: visit
lots in order, stopping as soon as `remaining <= 0`; lots after the break
are left untouched.  Returns the final `remaining` and the lot list with
visited lots updated. -/
def decrementWalk (weightPerMeter : ℚ) : ℚ → List StockItem → ℚ × List StockItem
  | remaining, [] => (remaining, [])
  | remaining, item :: rest =>
    if remaining ≤ 0 then (remaining, item :: rest)
    else
      let step := deductItem weightPerMeter remaining item
      let next := decrementWalk weightPerMeter step.1 rest
      (next.1, step.2 :: next.2)

/-- The candidate query of `decrementStock`:
`StockItem.find({product, status: 'available', quantity: {$gt: 0}})`
sorted by `{ type: -1, calculatedWeight: 1 }`. -/
def candidateLots (items : List StockItem) (pid : ℕ) : List StockItem :=
  List.insertionSort lotLE (items.filter fun i =>
    decide (i.product = pid) && decide (i.status = .available) && decide (0 < i.quantity))

/-- `decrementStock(productId, quantity)`: walk the sorted candidates,
persist each visited lot, and return `remaining <= 0` (whether the
request was fully satisfied).  The stock collection is updated by
replacing each document (matched by id) with its saved version. -/
def decrementStock (weightPerMeter : ℚ) (items : List StockItem) (pid : ℕ) (quantity : ℚ) :
    Bool × List StockItem :=
  let walked := decrementWalk weightPerMeter quantity (candidateLots items pid)
  (decide (walked.1 ≤ 0),
    items.map fun i => ((walked.2.find? fun u => u.id == i.id).getD i))

/-- A fresh id for a newly created document. -/
def freshId (items : List StockItem) : ℕ := (items.map (·.id)).foldr max 0 + 1

/-- The query condition of `restoreStock`:
`{product, status: 'available', type: 'FULL_BAR'}`. -/
def restoreCond (pid : ℕ) (i : StockItem) : Bool :=
  i.product == pid && i.status == LotStatus.available && i.type == LotType.FULL_BAR

/-- The total piece count over a product's available full-bar lots. -/
def fullBarQtySum (items : List StockItem) (pid : ℕ) : ℚ :=
  ((items.filter (restoreCond pid)).map (·.quantity)).sum

/-- `restoreStock(productId, quantity)`: find one available `FULL_BAR`
item for the product; if found, increment its `quantity` by 1, recompute
its weight and save it; otherwise create a new `FULL_BAR` item with
`quantity: 1` (default `lengthMM` 6000) whose weight is derived on save.
Note the `quantity` argument is never read. -/
def restoreStock (weightPerMeter : ℚ) (items : List StockItem) (pid : ℕ) (quantity : ℚ) :
    List StockItem :=
  match items.find? (restoreCond pid) with
  | some it =>
    let it1 := StockItem.calculateWeight weightPerMeter { it with quantity := it.quantity + 1 }
    items.map fun j => if j.id == it.id then it1 else j
  | none =>
    items ++ [StockItem.calculateWeight weightPerMeter
      { id := freshId items, product := pid, type := .FULL_BAR, quantity := 1,
        lengthMM := 6000, calculatedWeight := 0, status := .available }]

/-! ## Project model (`models/Project.js`) -/

/-- `projectSchema.status` enum. -/
inductive ProjectStatus where
  | draft
  | active
  | completed
  | on_hold
  | cancelled
  deriving DecidableEq, Repr

/-- One embedded labor entry of a project. -/
structure LaborEntry where
  id : ℕ
  worker : String
  hours : ℚ
  hourlyRate : ℚ
  totalCost : ℚ
  deriving DecidableEq, Repr

/-- One embedded other-cost entry of a project. -/
structure OtherCost where
  description : String
  amount : ℚ
  deriving DecidableEq, Repr

/-- The `budget` / `costs` blocks of a project. -/
structure CostBlock where
  materials : ℚ
  labor : ℚ
  other : ℚ
  total : ℚ
  deriving DecidableEq, Repr

/-- A `Project` document (only the fields the core operates on). -/
structure Project where
  status : ProjectStatus
  budget : CostBlock
  costs : CostBlock
  saleValue : ℚ
  laborEntries : List LaborEntry
  otherCosts : List OtherCost
  deriving DecidableEq, Repr

/-- `projectSchema.pre('save')`: recompute `costs.labor` from the labor
entries (setting each entry's `totalCost = hours * hourlyRate`) — but
only when the entry list is non-empty; recompute `costs.other` from the
other-cost entries — but only when that list is non-empty; then set
`costs.total` and `budget.total` as sums of their components. -/
def projectPreSave (p : Project) : Project :=
  let les :=
    if p.laborEntries.isEmpty then p.laborEntries
    else p.laborEntries.map fun e => { e with totalCost := e.hours * e.hourlyRate }
  let laborCost :=
    if p.laborEntries.isEmpty then p.costs.labor
    else (les.map (·.totalCost)).sum
  let otherCost :=
    if p.otherCosts.isEmpty then p.costs.other
    else (p.otherCosts.map (·.amount)).sum
  { p with
    laborEntries := les
    costs :=
      { materials := p.costs.materials, labor := laborCost, other := otherCost,
        total := p.costs.materials + laborCost + otherCost }
    budget :=
      { p.budget with total := p.budget.materials + p.budget.labor + p.budget.other } }

/-! ## Project materials (`models/ProjectMaterial.js`) -/

/-- A `ProjectMaterial` document (a project's claim on stock). -/
structure ProjectMaterial where
  id : ℕ
  project : ℕ
  product : ℕ
  quantity : ℚ
  unitCost : ℚ
  totalCost : ℚ
  movement : ℕ
  deriving DecidableEq, Repr

/-- `projectMaterialSchema.pre('save')`:
`totalCost = Math.round(quantity * unitCost * 100) / 100`. -/
def ProjectMaterial.preSave (pm : ProjectMaterial) : ProjectMaterial :=
  { pm with totalCost := round2 (pm.quantity * pm.unitCost) }

/-- `ProjectMaterial.getProjectTotals`: the sum of `totalCost` over the
project's current material records (0 when there are none). -/
def getProjectTotals (pms : List ProjectMaterial) (projId : ℕ) : ℚ :=
  ((pms.filter fun m => m.project == projId).map (·.totalCost)).sum

/-! ## Movements and products -/

/-- `movementSchema.type` values used by the project controller. -/
inductive MovementType where
  | IN
  | OUT
  | CUT
  | ADJUST
  deriving DecidableEq, Repr

/-- A `Movement` ledger entry (the fields the project controller sets). -/
structure Movement where
  type : MovementType
  product : ℕ
  quantityDelta : ℚ
  costSnapshot : ℚ
  deriving DecidableEq, Repr

/-- The fields of a `Product` document the core reads. -/
structure Product where
  id : ℕ
  weightPerMeter : ℚ
  lastPrice : ℚ
  averagePrice : ℚ
  deriving DecidableEq, Repr

/-! ## The project controller (`addMaterial`, `removeMaterial`,
`addLabor`, `removeLabor`) -/

/-- The error responses of the project controller. -/
inductive ApiError where
  | projectClosed
  | insufficientStock (available : ℚ)
  | notFound
  deriving DecidableEq, Repr

/-- The database state an operation acts on: one project and its
collections. -/
structure AppState where
  projectId : ℕ
  project : Project
  stockItems : List StockItem
  movements : List Movement
  projectMaterials : List ProjectMaterial
  deriving DecidableEq, Repr

/-- `product.financial?.lastPrice || product.financial?.averagePrice || 0`. -/
def unitCostOf (prod : Product) : ℚ :=
  if prod.lastPrice ≠ 0 then prod.lastPrice
  else if prod.averagePrice ≠ 0 then prod.averagePrice
  else 0

/-- `stockData.totalWeight || stockData.totalQuantity || 0` — the
available stock figure `addMaterial` checks against. -/
def availableStockOf (items : List StockItem) (pid : ℕ) : ℚ :=
  let stockData := getTotalStock items pid
  if stockData.totalWeight ≠ 0 then stockData.totalWeight else stockData.totalQuantity

/-- `addMaterial` (POST /api/projects/:id/materials), after the project
and product have been found: reject when the project is completed or
cancelled; reject with the available amount when
`quantity > availableStock * 1.05`; otherwise create the OUT movement,
decrement stock (ignoring the decrement's own satisfied/shortfall
result), create the `ProjectMaterial`, and recompute the project's
material costs from `getProjectTotals`. -/
def addMaterial (s : AppState) (prod : Product) (quantity : ℚ) :
    Except ApiError ProjectMaterial × AppState :=
  if s.project.status = .completed ∨ s.project.status = .cancelled then
    (.error .projectClosed, s)
  else
    let availableStock := availableStockOf s.stockItems prod.id
    if availableStock * (105 / 100) < quantity then
      (.error (.insufficientStock availableStock), s)
    else
      let unitCost := unitCostOf prod
      let movement : Movement :=
        { type := .OUT, product := prod.id, quantityDelta := -quantity,
          costSnapshot := unitCost }
      let s1 : AppState := { s with movements := s.movements ++ [movement] }
      let s2 : AppState :=
        { s1 with
          stockItems := (decrementStock prod.weightPerMeter s1.stockItems prod.id quantity).2 }
      let pm := ProjectMaterial.preSave
        { id := s.projectMaterials.length, project := s.projectId, product := prod.id,
          quantity := quantity, unitCost := unitCost, totalCost := 0,
          movement := s.movements.length }
      let s3 : AppState := { s2 with projectMaterials := s2.projectMaterials ++ [pm] }
      let proj := projectPreSave
        { s3.project with costs :=
            { s3.project.costs with
              materials := getProjectTotals s3.projectMaterials s.projectId } }
      (.ok pm, { s3 with project := proj })

/-- `removeMaterial` (DELETE /api/projects/:id/materials/:materialId):
reject only when the project is completed; 404 when the material is
missing or belongs to another project; otherwise create the compensating
IN movement, restore stock, delete the record, and recompute material
costs. -/
def removeMaterial (s : AppState) (prod : Product) (materialId : ℕ) :
    Except ApiError Unit × AppState :=
  if s.project.status = .completed then
    (.error .projectClosed, s)
  else
    match s.projectMaterials.find? fun m => m.id == materialId with
    | none => (.error .notFound, s)
    | some pm =>
      if pm.project ≠ s.projectId then (.error .notFound, s)
      else
        let movement : Movement :=
          { type := .IN, product := pm.product, quantityDelta := pm.quantity,
            costSnapshot := pm.unitCost }
        let s1 : AppState := { s with movements := s.movements ++ [movement] }
        let s2 : AppState :=
          { s1 with
            stockItems := restoreStock prod.weightPerMeter s1.stockItems pm.product pm.quantity }
        let s3 : AppState :=
          { s2 with projectMaterials := s2.projectMaterials.filter fun m => m.id != pm.id }
        let proj := projectPreSave
          { s3.project with costs :=
              { s3.project.costs with
                materials := getProjectTotals s3.projectMaterials s.projectId } }
        (.ok (), { s3 with project := proj })

/-- `addLabor` (POST /api/projects/:id/labor): reject when the project is
completed or cancelled; otherwise push an entry with
`totalCost = hours * hourlyRate` and save the project. -/
def addLabor (s : AppState) (worker : String) (hours hourlyRate : ℚ) :
    Except ApiError Unit × AppState :=
  if s.project.status = .completed ∨ s.project.status = .cancelled then
    (.error .projectClosed, s)
  else
    let entry : LaborEntry :=
      { id := s.project.laborEntries.length, worker := worker, hours := hours,
        hourlyRate := hourlyRate, totalCost := hours * hourlyRate }
    let p1 : Project := { s.project with laborEntries := s.project.laborEntries ++ [entry] }
    (.ok (), { s with project := projectPreSave p1 })

/-- `removeLabor` (DELETE /api/projects/:id/labor/:entryId): find the
entry by id (404 when absent), splice it out and save the project.  The
controller performs no project-status check here. -/
def removeLabor (s : AppState) (entryId : ℕ) : Except ApiError Unit × AppState :=
  match s.project.laborEntries.findIdx? fun e => e.id == entryId with
  | none => (.error .notFound, s)
  | some i =>
    let p1 : Project := { s.project with laborEntries := s.project.laborEntries.eraseIdx i }
    (.ok (), { s with project := projectPreSave p1 })

/-! ## Geometry / mass calculator (the MetalMath engine in
`services/stockAlertService.js`) -/

noncomputable section

/-- JavaScript `Math.round` over the reals. -/
def jsRoundR (x : ℝ) : ℝ := ((⌊x + 1 / 2⌋ : ℤ) : ℝ)

/-- `mmToCm`: millimeters to centimeters. -/
def mmToCm (mm : ℝ) : ℝ := mm / 10

/-- `volumeRoundBar`: cylinder volume in cm³ from diameter and length in
mm. -/
def volumeRoundBar (diameterMm lengthMm : ℝ) : ℝ :=
  Real.pi * (mmToCm diameterMm / 2) ^ 2 * mmToCm lengthMm

/-- `volumeRectangular`: rectangular bar / plate volume in cm³. -/
def volumeRectangular (widthMm heightMm lengthMm : ℝ) : ℝ :=
  mmToCm widthMm * mmToCm heightMm * mmToCm lengthMm

/-- `volumeTube`: hollow-cylinder volume in cm³, outer area minus inner
area times length, with inner radius `outerRadius - wall`. -/
def volumeTube (outerDiameterMm wallThicknessMm lengthMm : ℝ) : ℝ :=
  (Real.pi * (mmToCm outerDiameterMm / 2) ^ 2
      - Real.pi * (mmToCm outerDiameterMm / 2 - mmToCm wallThicknessMm) ^ 2)
    * mmToCm lengthMm

/-- `volumeHex`: hexagonal bar volume in cm³ from the across-flats
distance, area `(√3/2) * F²`. -/
def volumeHex (flatToFlatMm lengthMm : ℝ) : ℝ :=
  Real.sqrt 3 / 2 * mmToCm flatToFlatMm ^ 2 * mmToCm lengthMm

/-- `calculateWeight`: `weightKg = volumeCm3 * density / 1000`, rounded
to 2 decimal places. -/
def calculateWeight (volumeCm3 densityGCm3 : ℝ) : ℝ :=
  jsRoundR (volumeCm3 * densityGCm3 / 1000 * 100) / 100

/-- `lengthFromWeight`: inverse computation for round bars, returning a
`Math.round`ed length in mm. -/
def lengthFromWeight (weightKg diameterMm densityGCm3 : ℝ) : ℝ :=
  let radiusCm := mmToCm diameterMm / 2
  let crossSectionAreaCm2 := Real.pi * radiusCm ^ 2
  let volumeCm3 := weightKg * 1000 / densityGCm3
  let lengthCm := volumeCm3 / crossSectionAreaCm2
  jsRoundR (lengthCm * 10)

/-- The `DENSITIES` table (g/cm³). -/
def DENSITIES (materialType : String) : Option ℝ :=
  if materialType = "steel" then some 7.85
  else if materialType = "stainless" then some 7.90
  else if materialType = "aluminum" then some 2.70
  else if materialType = "brass" then some 8.50
  else if materialType = "bronze" then some 8.80
  else if materialType = "plastic" then some 1.20
  else none

/-- The `dimensions` object passed to `getWeight` (`d`, `w`, `h`, `wall`
in mm; only the fields relevant to the shape are read). -/
structure Dimensions where
  d : ℝ
  w : ℝ
  h : ℝ
  wall : ℝ

/-- `getWeight` throws `Error("Unknown shape: ...")` on an unsupported
shape. -/
inductive WeightError where
  | unsupportedShape (shape : String)

/-- `getWeight({shape, dimensions, lengthMm, density, materialType})`:
resolve the effective density (`density || DENSITIES[materialType] ||
DENSITIES.steel`), dispatch on the shape string, and round only the
final mass.  Unknown shapes fail. -/
def getWeight (shape : String) (dimensions : Dimensions) (lengthMm density : ℝ)
    (materialType : String) : Except WeightError ℝ :=
  let effectiveDensity :=
    if density = 0 then (DENSITIES materialType).getD 7.85 else density
  if shape = "round" then
    .ok (calculateWeight (volumeRoundBar dimensions.d lengthMm) effectiveDensity)
  else if shape = "hex" then
    .ok (calculateWeight (volumeHex dimensions.d lengthMm) effectiveDensity)
  else if shape = "tube" then
    .ok (calculateWeight (volumeTube dimensions.d dimensions.wall lengthMm) effectiveDensity)
  else if shape = "plate" ∨ shape = "box" then
    .ok (calculateWeight (volumeRectangular dimensions.w dimensions.h lengthMm) effectiveDensity)
  else
    .error (.unsupportedShape shape)

/-- The specification's rounding boundary: mass rounded to 2 decimal
places, applied only at the result. -/
def round2R (x : ℝ) : ℝ := jsRoundR (x * 100) / 100

/-- The specification's per-shape volume formulas (spec side of the
refinement claim about `getWeight`): with all dimensions converted from
mm to cm first, volume is `π·(d/2)²·L` for round, `(√3/2)·F²·L` for hex,
`π·[(D/2)² − (D/2 − wall)²]·L` for tube and `width·height·L` for
plate/box. -/
def specVolumeCm3 (shape : String) (dimensions : Dimensions) (lengthMm : ℝ) : ℝ :=
  if shape = "round" then Real.pi * (dimensions.d / 10 / 2) ^ 2 * (lengthMm / 10)
  else if shape = "hex" then Real.sqrt 3 / 2 * (dimensions.d / 10) ^ 2 * (lengthMm / 10)
  else if shape = "tube" then
    Real.pi * ((dimensions.d / 10 / 2) ^ 2 - (dimensions.d / 10 / 2 - dimensions.wall / 10) ^ 2)
      * (lengthMm / 10)
  else dimensions.w / 10 * (dimensions.h / 10) * (lengthMm / 10)

end

/-! ## Helper lemmas -/

theorem StockItem.calculateWeight_quantity (w : ℚ) (it : StockItem) :
    (StockItem.calculateWeight w it).quantity = it.quantity := by
  unfold StockItem.calculateWeight
  split <;> rfl

theorem StockItem.calculateWeight_status (w : ℚ) (it : StockItem) :
    (StockItem.calculateWeight w it).status = it.status := by
  unfold StockItem.calculateWeight
  split <;> rfl

theorem StockItem.calculateWeight_type (w : ℚ) (it : StockItem) :
    (StockItem.calculateWeight w it).type = it.type := by
  unfold StockItem.calculateWeight
  split <;> rfl

theorem StockItem.calculateWeight_product (w : ℚ) (it : StockItem) :
    (StockItem.calculateWeight w it).product = it.product := by
  unfold StockItem.calculateWeight
  split <;> rfl

theorem StockItem.calculateWeight_id (w : ℚ) (it : StockItem) :
    (StockItem.calculateWeight w it).id = it.id := by
  unfold StockItem.calculateWeight
  split <;> rfl

instance : IsTotal StockItem lotLE :=
  ⟨fun a b => by
    unfold lotLE
    rcases Nat.lt_trichotomy (typeSortKey a.type) (typeSortKey b.type) with h | h | h
    · exact Or.inl (Or.inl h)
    · rcases le_total a.calculatedWeight b.calculatedWeight with hw | hw
      · exact Or.inl (Or.inr ⟨h, hw⟩)
      · exact Or.inr (Or.inr ⟨h.symm, hw⟩)
    · exact Or.inr (Or.inl h)⟩

instance : IsTrans StockItem lotLE :=
  ⟨fun a b c hab hbc => by
    unfold lotLE at *
    rcases hab with h1 | ⟨e1, w1⟩ <;> rcases hbc with h2 | ⟨e2, w2⟩
    · exact Or.inl (h1.trans h2)
    · exact Or.inl (e2 ▸ h1)
    · exact Or.inl (e1 ▸ h2)
    · exact Or.inr ⟨e1.trans e2, w1.trans w2⟩⟩

theorem mem_candidateLots {items : List StockItem} {pid : ℕ} {i : StockItem} :
    i ∈ candidateLots items pid ↔
      i ∈ items ∧ i.product = pid ∧ i.status = .available ∧ 0 < i.quantity := by
  unfold candidateLots
  rw [List.Perm.mem_iff (List.perm_insertionSort _ _)]
  simp [List.mem_filter, and_assoc]

theorem itemStockOf_nonneg {i : StockItem} (hw : 0 ≤ i.calculatedWeight)
    (hq : 0 < i.quantity) : 0 ≤ itemStockOf i := by
  unfold itemStockOf
  split
  · exact hw
  · exact hq.le

theorem applyDeduction_status (rem : ℚ) (it : StockItem) :
    (applyDeduction rem it).status = it.status := by
  unfold applyDeduction
  split <;> rfl

theorem deductItem_fst (w rem : ℚ) (it : StockItem) :
    (deductItem w rem it).1 = rem - min rem (itemStockOf it) := rfl

theorem deductItem_consumed_iff (w rem : ℚ) (it : StockItem)
    (h : it.status = .available) :
    ((deductItem w rem it).2.status = .consumed ↔ (deductItem w rem it).2.quantity ≤ 0) := by
  show ((StockItem.calculateWeight w (markConsumed (applyDeduction rem it))).status = _ ↔
    (StockItem.calculateWeight w (markConsumed (applyDeduction rem it))).quantity ≤ 0)
  rw [StockItem.calculateWeight_status, StockItem.calculateWeight_quantity]
  unfold markConsumed
  by_cases hc : (applyDeduction rem it).quantity ≤ 0
  · rw [if_pos hc]
    simpa using hc
  · rw [if_neg hc]
    rw [applyDeduction_status rem it, h]
    constructor
    · intro hx
      exact absurd hx (by decide)
    · intro hx
      exact absurd hx hc

theorem decrementWalk_fst (w : ℚ) (l : List StockItem) :
    ∀ rem : ℚ, 0 ≤ rem → (∀ i ∈ l, 0 ≤ itemStockOf i) →
      (decrementWalk w rem l).1 = rem - min rem ((l.map itemStockOf).sum) := by
  induction l with
  | nil =>
    intro rem h0 _
    simp [decrementWalk, min_eq_right h0]
  | cons it rest ih =>
    intro rem h0 hstocks
    have hs0 : 0 ≤ itemStockOf it := hstocks it (List.mem_cons_self _ _)
    have hrest : ∀ i ∈ rest, 0 ≤ itemStockOf i := fun i hi =>
      hstocks i (List.mem_cons_of_mem _ hi)
    have hsum : 0 ≤ (rest.map itemStockOf).sum :=
      List.sum_nonneg (by
        intro x hx
        obtain ⟨i, hi, rfl⟩ := List.mem_map.mp hx
        exact hrest i hi)
    simp only [decrementWalk]
    by_cases hr : rem ≤ 0
    · have h00 : rem = 0 := le_antisymm hr h0
      subst h00
      rw [if_pos le_rfl]
      have : min (0 : ℚ) ((List.map itemStockOf (it :: rest)).sum) = 0 := by
        apply min_eq_left
        simp only [List.map_cons, List.sum_cons]
        positivity
      rw [this]
      ring_nf
    · rw [if_neg hr]
      have h1 : (deductItem w rem it).1 = rem - min rem (itemStockOf it) := deductItem_fst ..
      have hrem1 : 0 ≤ rem - min rem (itemStockOf it) := by
        have := min_le_left rem (itemStockOf it)
        linarith
      simp only [h1]
      rw [ih _ hrem1 hrest]
      simp only [List.map_cons, List.sum_cons]
      rcases le_total rem (itemStockOf it) with hle | hle
      · have e1 : min rem (itemStockOf it) = rem := min_eq_left hle
        have e2 : min rem (itemStockOf it + (rest.map itemStockOf).sum) = rem :=
          min_eq_left (by linarith)
        rw [e1, e2, sub_self]
        rw [min_eq_left hsum]
        simp
      · have e1 : min rem (itemStockOf it) = itemStockOf it := min_eq_right hle
        rw [e1]
        rcases le_total (rem - itemStockOf it) ((rest.map itemStockOf).sum) with h2 | h2
        · have e2 : min (rem - itemStockOf it) ((rest.map itemStockOf).sum)
              = rem - itemStockOf it := min_eq_left h2
          have e3 : min rem (itemStockOf it + (rest.map itemStockOf).sum) = rem :=
            min_eq_left (by linarith)
          rw [e2, e3]
          ring
        · have e2 : min (rem - itemStockOf it) ((rest.map itemStockOf).sum)
              = (rest.map itemStockOf).sum := min_eq_right h2
          have e3 : min rem (itemStockOf it + (rest.map itemStockOf).sum)
              = itemStockOf it + (rest.map itemStockOf).sum := min_eq_right (by linarith)
          rw [e2, e3]
          ring

theorem decrementWalk_consumed (w : ℚ) (l : List StockItem) :
    ∀ rem : ℚ, (∀ i ∈ l, i.status = .available ∧ 0 < i.quantity) →
      ∀ j ∈ (decrementWalk w rem l).2, (j.status = .consumed ↔ j.quantity ≤ 0) := by
  induction l with
  | nil =>
    intro rem _ j hj
    simp [decrementWalk] at hj
  | cons it rest ih =>
    intro rem hl j hj
    have hit := hl it (List.mem_cons_self _ _)
    have hrest : ∀ i ∈ rest, i.status = .available ∧ 0 < i.quantity := fun i hi =>
      hl i (List.mem_cons_of_mem _ hi)
    simp only [decrementWalk] at hj
    by_cases hr : rem ≤ 0
    · rw [if_pos hr] at hj
      rcases List.mem_cons.mp hj with rfl | hj'
      · constructor
        · intro hc; rw [hit.1] at hc; exact absurd hc (by decide)
        · intro hq; exact absurd hq (not_le.mpr hit.2)
      · have h := hl j (List.mem_cons_of_mem _ hj')
        constructor
        · intro hc; rw [h.1] at hc; exact absurd hc (by decide)
        · intro hq; exact absurd hq (not_le.mpr h.2)
    · rw [if_neg hr] at hj
      rcases List.mem_cons.mp hj with rfl | hj'
      · exact deductItem_consumed_iff w rem it hit.1
      · exact ih _ hrest _ hj'

theorem lotOrderOK (a b : StockItem) (h : lotLE a b) :
    (b.type = .OFFCUT → a.type = .OFFCUT) ∧
      (a.type = b.type → a.calculatedWeight ≤ b.calculatedWeight) := by
  constructor
  · intro hb
    rcases h with h | ⟨e, _⟩
    · rw [hb] at h
      simp [typeSortKey] at h
    · rw [hb] at e
      cases ha : a.type <;> simp_all [typeSortKey]
  · intro he
    rcases h with h | ⟨_, w⟩
    · rw [he] at h
      exact absurd h (lt_irrefl _)
    · exact w

theorem restoreCond_calculateWeight (pid : ℕ) (w : ℚ) (it : StockItem) :
    restoreCond pid (StockItem.calculateWeight w it) = restoreCond pid it := by
  unfold restoreCond
  rw [StockItem.calculateWeight_product, StockItem.calculateWeight_status,
    StockItem.calculateWeight_type]

theorem fullBarQtySum_cons (pid : ℕ) (a : StockItem) (l : List StockItem) :
    fullBarQtySum (a :: l) pid
      = (if restoreCond pid a = true then a.quantity else 0) + fullBarQtySum l pid := by
  unfold fullBarQtySum
  rw [List.filter_cons]
  by_cases h : restoreCond pid a = true
  · simp [h]
  · simp [h]

theorem fullBarQtySum_replace (pid : ℕ) :
    ∀ (items : List StockItem) (it it1 : StockItem),
      (items.map (·.id)).Nodup → it ∈ items →
      restoreCond pid it = true → restoreCond pid it1 = true →
      fullBarQtySum (items.map fun j => if j.id == it.id then it1 else j) pid
        = fullBarQtySum items pid - it.quantity + it1.quantity := by
  intro items
  induction items with
  | nil =>
    intro it it1 _ hmem
    exact absurd hmem (List.not_mem_nil _)
  | cons a rest ih =>
    intro it it1 hnodup hmem hcond hcond1
    rw [List.map_cons, List.nodup_cons] at hnodup
    rcases List.mem_cons.mp hmem with rfl | hmem'
    · have hhead : (if it.id == it.id then it1 else it) = it1 := by simp
      have htail : rest.map (fun j => if j.id == it.id then it1 else j) = rest := by
        have hcongr : ∀ j ∈ rest, (if j.id == it.id then it1 else j) = j := by
          intro j hj
          have : j.id ≠ it.id := by
            intro he
            exact hnodup.1 (he ▸ List.mem_map_of_mem (·.id) hj)
          simp [this]
        calc rest.map (fun j => if j.id == it.id then it1 else j)
            = rest.map id := List.map_congr_left hcongr
          _ = rest := List.map_id rest
      rw [List.map_cons, hhead, htail, fullBarQtySum_cons, fullBarQtySum_cons,
        if_pos hcond1, if_pos hcond]
      ring
    · have hne : (a.id == it.id) = false := by
        have : a.id ≠ it.id := by
          intro he
          exact hnodup.1 (he ▸ List.mem_map_of_mem (·.id) hmem')
        simp [this]
      rw [List.map_cons, hne]
      simp only [Bool.false_eq_true, if_false]
      rw [fullBarQtySum_cons, fullBarQtySum_cons, ih it it1 hnodup.2 hmem' hcond hcond1]
      ring

/-! ## Claim theorems -/

/-- Claim C1: whenever the requested quantity exceeds the product's
available stock times 1.05, `addMaterial` fails with an
insufficient-stock error carrying the available amount and returns the
state unchanged: no stock lot is mutated, no movement is created, no
project-material record is created. -/
theorem addMaterial_insufficient_stock (s : AppState) (prod : Product) (q : ℚ)
    (hopen : ¬(s.project.status = .completed ∨ s.project.status = .cancelled))
    (hq : availableStockOf s.stockItems prod.id * (105 / 100) < q) :
    addMaterial s prod q
      = (.error (.insufficientStock (availableStockOf s.stockItems prod.id)), s) := by
  simp only [addMaterial]
  rw [if_neg hopen, if_pos hq]

/-- Claim C1 witness: requesting 20 when one lot holds weight 10 fails
with `available = 10` and an unchanged state. -/
theorem addMaterial_insufficient_stock_witness :
    availableStockOf [⟨0, 7, .FULL_BAR, 1, 6000, 10, .available⟩] 7 = 10 ∧
    addMaterial
        ⟨1, ⟨.active, ⟨0, 0, 0, 0⟩, ⟨0, 0, 0, 0⟩, 0, [], []⟩,
          [⟨0, 7, .FULL_BAR, 1, 6000, 10, .available⟩], [], []⟩
        ⟨7, 0, 2, 0⟩ 20
      = (.error (.insufficientStock 10),
          ⟨1, ⟨.active, ⟨0, 0, 0, 0⟩, ⟨0, 0, 0, 0⟩, 0, [], []⟩,
            [⟨0, 7, .FULL_BAR, 1, 6000, 10, .available⟩], [], []⟩) := by
  have havail : availableStockOf [⟨0, 7, .FULL_BAR, 1, 6000, 10, .available⟩] 7 = 10 := by
    norm_num [availableStockOf, getTotalStock]
  refine ⟨havail, ?_⟩
  have h := addMaterial_insufficient_stock
    ⟨1, ⟨.active, ⟨0, 0, 0, 0⟩, ⟨0, 0, 0, 0⟩, 0, [], []⟩,
      [⟨0, 7, .FULL_BAR, 1, 6000, 10, .available⟩], [], []⟩
    ⟨7, 0, 2, 0⟩ 20 (by simp) (by rw [havail]; norm_num)
  rw [havail] at h
  exact h

/-- Claim C7 counterexample: on a completed project, removing a labor
entry is NOT rejected — `removeLabor` performs no status check, so the
claim that removals of labor entries are rejected when the status is
`completed` is false.  The call succeeds and the entry is removed. -/
theorem removeLabor_completed_not_rejected :
    (removeLabor
        ⟨1, ⟨.completed, ⟨0, 0, 0, 0⟩, ⟨0, 50, 0, 50⟩, 0, [⟨0, "w", 2, 25, 50⟩], []⟩,
          [], [], []⟩ 0).1 = .ok () ∧
    (removeLabor
        ⟨1, ⟨.completed, ⟨0, 0, 0, 0⟩, ⟨0, 50, 0, 50⟩, 0, [⟨0, "w", 2, 25, 50⟩], []⟩,
          [], [], []⟩ 0).2.project.laborEntries = [] := by
  constructor <;> norm_num [removeLabor, projectPreSave, List.findIdx?]

/-- Claim C7, amended: material and labor additions are rejected with a
project-closed error (state unchanged) once the status is `completed` or
`cancelled`; material removals are rejected exactly when the status is
`completed`; labor removals are never rejected for status reasons. -/
theorem project_closed_guards :
    (∀ (s : AppState) (prod : Product) (q : ℚ),
        (s.project.status = .completed ∨ s.project.status = .cancelled) →
        addMaterial s prod q = (.error .projectClosed, s))
    ∧ (∀ (s : AppState) (w : String) (h r : ℚ),
        (s.project.status = .completed ∨ s.project.status = .cancelled) →
        addLabor s w h r = (.error .projectClosed, s))
    ∧ (∀ (s : AppState) (prod : Product) (mid : ℕ),
        s.project.status = .completed →
        removeMaterial s prod mid = (.error .projectClosed, s))
    ∧ (∀ (s : AppState) (prod : Product) (mid : ℕ),
        s.project.status ≠ .completed →
        (removeMaterial s prod mid).1 ≠ .error .projectClosed)
    ∧ (∀ (s : AppState) (eid : ℕ),
        (removeLabor s eid).1 ≠ .error .projectClosed) := by
  refine ⟨?_, ?_, ?_, ?_, ?_⟩
  · intro s prod q h
    simp only [addMaterial]
    rw [if_pos h]
  · intro s w h r hcl
    simp only [addLabor]
    rw [if_pos hcl]
  · intro s prod mid h
    simp only [removeMaterial]
    rw [if_pos (by simp [h])]
  · intro s prod mid h
    simp only [removeMaterial]
    rw [if_neg (by simp [h])]
    cases hfind : s.projectMaterials.find? fun m => m.id == mid with
    | none => simp
    | some pm =>
      by_cases hp : pm.project ≠ s.projectId
      · simp [hp]
      · simp [hp]
  · intro s eid
    simp only [removeLabor]
    cases hfind : s.project.laborEntries.findIdx? fun e => e.id == eid with
    | none => simp
    | some i => simp

/-- Claim C7 witness: the guards applied at concrete closed and open
projects. -/
theorem project_closed_guards_witness :
    addLabor ⟨1, ⟨.cancelled, ⟨0, 0, 0, 0⟩, ⟨0, 0, 0, 0⟩, 0, [], []⟩, [], [], []⟩ "w" 1 1
        = (.error .projectClosed,
            ⟨1, ⟨.cancelled, ⟨0, 0, 0, 0⟩, ⟨0, 0, 0, 0⟩, 0, [], []⟩, [], [], []⟩) ∧
    removeMaterial ⟨1, ⟨.completed, ⟨0, 0, 0, 0⟩, ⟨0, 0, 0, 0⟩, 0, [], []⟩, [], [], []⟩
        ⟨7, 0, 0, 0⟩ 0
        = (.error .projectClosed,
            ⟨1, ⟨.completed, ⟨0, 0, 0, 0⟩, ⟨0, 0, 0, 0⟩, 0, [], []⟩, [], [], []⟩) ∧
    (removeMaterial ⟨1, ⟨.cancelled, ⟨0, 0, 0, 0⟩, ⟨0, 0, 0, 0⟩, 0, [], []⟩, [], [], []⟩
        ⟨7, 0, 0, 0⟩ 0).1 ≠ .error .projectClosed := by
  refine ⟨?_, ?_, ?_⟩
  · exact project_closed_guards.2.1 _ "w" 1 1 (Or.inr rfl)
  · exact project_closed_guards.2.2.1 _ ⟨7, 0, 0, 0⟩ 0 rfl
  · exact project_closed_guards.2.2.2.1 _ ⟨7, 0, 0, 0⟩ 0 (by simp)

/-- Claim C9: for every shape string outside the supported set
`{round, hex, tube, plate, box}`, `getWeight` fails with an
unsupported-shape error and returns no weight. -/
theorem getWeight_unsupported (shape : String) (dims : Dimensions) (lengthMm density : ℝ)
    (materialType : String)
    (h : shape ∉ (["round", "hex", "tube", "plate", "box"] : List String)) :
    getWeight shape dims lengthMm density materialType = .error (.unsupportedShape shape) := by
  simp only [List.mem_cons, List.not_mem_nil, or_false, not_or] at h
  obtain ⟨h1, h2, h3, h4, h5⟩ := h
  simp only [getWeight]
  rw [if_neg h1, if_neg h2, if_neg h3, if_neg (not_or.mpr ⟨h4, h5⟩)]

/-- Claim C9 witness: the unknown shape "spiral" is rejected. -/
theorem getWeight_unsupported_witness :
    "spiral" ∉ (["round", "hex", "tube", "plate", "box"] : List String) ∧
    getWeight "spiral" ⟨1, 1, 1, 1⟩ 1 1 "steel" = .error (.unsupportedShape "spiral") := by
  refine ⟨by decide, ?_⟩
  exact getWeight_unsupported "spiral" ⟨1, 1, 1, 1⟩ 1 1 "steel" (by decide)

/-- Claim C2: for every decrement call, the candidate lots are exactly
the product's available lots with positive count; they are visited in
the deterministic order "offcuts before full bars and boxes, ascending
weight within a kind"; and the walk deducts `min(remaining, lot stock)`
per lot until the request is exhausted or lots run out — in aggregate,
the final remaining is `q - min q (total candidate stock)`. -/
theorem decrementStock_allocation_order (items : List StockItem) (pid : ℕ) (wpm q : ℚ)
    (hq : 0 ≤ q) (hw : ∀ i ∈ items, 0 ≤ i.calculatedWeight) :
    List.Perm (candidateLots items pid)
        (items.filter fun i =>
          decide (i.product = pid) && decide (i.status = .available) && decide (0 < i.quantity))
    ∧ List.Pairwise
        (fun a b => (b.type = .OFFCUT → a.type = .OFFCUT) ∧
          (a.type = b.type → a.calculatedWeight ≤ b.calculatedWeight))
        (candidateLots items pid)
    ∧ (decrementWalk wpm q (candidateLots items pid)).1
        = q - min q (((candidateLots items pid).map itemStockOf).sum) := by
  refine ⟨List.perm_insertionSort _ _, ?_, ?_⟩
  · have hs : List.Sorted lotLE (candidateLots items pid) := List.sorted_insertionSort _ _
    exact List.Pairwise.imp (fun h => lotOrderOK _ _ h) hs
  · apply decrementWalk_fst wpm _ q hq
    intro i hi
    have hm := mem_candidateLots.mp hi
    exact itemStockOf_nonneg (hw i hm.1) hm.2.2.2

/-- Claim C2 witness: with one offcut of weight 2 and one full bar of
weight 10, the offcut is visited first and a request of 2 consumes only
the offcut, leaving the full bar untouched. -/
theorem decrementStock_allocation_order_witness :
    (0 : ℚ) ≤ 2 ∧
    candidateLots
        [⟨2, 7, .FULL_BAR, 1, 6000, 10, .available⟩, ⟨1, 7, .OFFCUT, 1, 2000, 2, .available⟩] 7
      = [⟨1, 7, .OFFCUT, 1, 2000, 2, .available⟩, ⟨2, 7, .FULL_BAR, 1, 6000, 10, .available⟩] ∧
    decrementStock 0
        [⟨2, 7, .FULL_BAR, 1, 6000, 10, .available⟩, ⟨1, 7, .OFFCUT, 1, 2000, 2, .available⟩] 7 2
      = (true,
          [⟨2, 7, .FULL_BAR, 1, 6000, 10, .available⟩, ⟨1, 7, .OFFCUT, 0, 2000, 0, .consumed⟩]) ∧
    (decrementWalk 0 2 (candidateLots
        [⟨2, 7, .FULL_BAR, 1, 6000, 10, .available⟩, ⟨1, 7, .OFFCUT, 1, 2000, 2, .available⟩] 7)).1
      = 2 - min 2 (((candidateLots
          [⟨2, 7, .FULL_BAR, 1, 6000, 10, .available⟩,
            ⟨1, 7, .OFFCUT, 1, 2000, 2, .available⟩] 7).map itemStockOf).sum) := by
  refine ⟨by norm_num, ?_, ?_, ?_⟩
  · norm_num [candidateLots, List.insertionSort, List.orderedInsert, lotLE, typeSortKey]
  · norm_num [decrementStock, decrementWalk, deductItem, deductAmount, applyDeduction,
      markConsumed, StockItem.calculateWeight, itemStockOf, candidateLots,
      List.insertionSort, List.orderedInsert, lotLE, typeSortKey]
  · exact (decrementStock_allocation_order
      [⟨2, 7, .FULL_BAR, 1, 6000, 10, .available⟩, ⟨1, 7, .OFFCUT, 1, 2000, 2, .available⟩] 7 0 2
      (by norm_num) (by
        intro i hi
        rcases List.mem_cons.mp hi with rfl | hi
        · norm_num
        · rcases List.mem_cons.mp hi with rfl | hi
          · norm_num
          · simp at hi)).2.2

/-- Claim C5: a lot touched by the decrement walk ends with status
`consumed` exactly when its remaining quantity is `<= 0` (and never
earlier); consumed lots are excluded from the allocation candidates and
contribute nothing to the total-stock aggregation. -/
theorem consumed_exactly_when_exhausted :
    (∀ (wpm q : ℚ) (items : List StockItem) (pid : ℕ),
        ∀ j ∈ (decrementWalk wpm q (candidateLots items pid)).2,
          (j.status = .consumed ↔ j.quantity ≤ 0))
    ∧ (∀ (items : List StockItem) (pid : ℕ) (i : StockItem),
        i.status = .consumed → i ∉ candidateLots items pid)
    ∧ (∀ (items : List StockItem) (pid : ℕ) (i : StockItem),
        i.status = .consumed → getTotalStock (i :: items) pid = getTotalStock items pid) := by
  refine ⟨?_, ?_, ?_⟩
  · intro wpm q items pid j hj
    refine decrementWalk_consumed wpm (candidateLots items pid) q ?_ j hj
    intro i hi
    have hm := mem_candidateLots.mp hi
    exact ⟨hm.2.2.1, hm.2.2.2⟩
  · intro items pid i hi hmem
    have hm := mem_candidateLots.mp hmem
    rw [hi] at hm
    exact absurd hm.2.2.1 (by decide)
  · intro items pid i hi
    simp [getTotalStock, List.filter_cons, hi]

/-- Claim C5 witness: the walk over one available offcut of weight 2,
asked for 2, leaves it consumed with quantity 0; a consumed lot is not a
candidate and does not change the aggregate totals. -/
theorem consumed_exactly_when_exhausted_witness :
    ((⟨1, 7, .OFFCUT, 0, 2000, 0, .consumed⟩ : StockItem).status = .consumed ↔
      (⟨1, 7, .OFFCUT, 0, 2000, 0, .consumed⟩ : StockItem).quantity ≤ 0) ∧
    (⟨9, 7, .OFFCUT, 1, 0, 0, .consumed⟩ : StockItem) ∉
      candidateLots [⟨9, 7, .OFFCUT, 1, 0, 0, .consumed⟩] 7 ∧
    getTotalStock [⟨9, 7, .OFFCUT, 1, 0, 0, .consumed⟩] 7 = getTotalStock [] 7 := by
  refine ⟨?_, ?_, ?_⟩
  · refine consumed_exactly_when_exhausted.1 0 2 [⟨1, 7, .OFFCUT, 1, 2000, 2, .available⟩] 7 _ ?_
    norm_num [decrementWalk, deductItem, deductAmount, applyDeduction, markConsumed,
      StockItem.calculateWeight, itemStockOf, candidateLots, List.insertionSort,
      List.orderedInsert]
  · exact consumed_exactly_when_exhausted.2.1 _ 7 _ rfl
  · exact consumed_exactly_when_exhausted.2.2 _ 7 _ rfl

/-- Claim C10: when a request passes the 5% tolerance pre-check but
exceeds the total physically deductible candidate stock, `addMaterial`
still reports success: the OUT movement and the project-material record
carry the full requested quantity, while the decrement walk's own
satisfied flag — which is `false` here — is discarded and no
insufficiency signal is raised. -/
theorem addMaterial_ignores_shortfall (s : AppState) (prod : Product) (q : ℚ)
    (hopen : ¬(s.project.status = .completed ∨ s.project.status = .cancelled))
    (hpre : ¬(availableStockOf s.stockItems prod.id * (105 / 100) < q))
    (hw : ∀ i ∈ s.stockItems, 0 ≤ i.calculatedWeight)
    (hq : 0 ≤ q)
    (hshort : ((candidateLots s.stockItems prod.id).map itemStockOf).sum < q) :
    (decrementStock prod.weightPerMeter s.stockItems prod.id q).1 = false
    ∧ (addMaterial s prod q).1
        = .ok (ProjectMaterial.preSave
            ⟨s.projectMaterials.length, s.projectId, prod.id, q, unitCostOf prod, 0,
              s.movements.length⟩)
    ∧ (ProjectMaterial.preSave
        ⟨s.projectMaterials.length, s.projectId, prod.id, q, unitCostOf prod, 0,
          s.movements.length⟩).quantity = q
    ∧ (addMaterial s prod q).2.movements
        = s.movements ++ [⟨.OUT, prod.id, -q, unitCostOf prod⟩]
    ∧ (addMaterial s prod q).2.projectMaterials
        = s.projectMaterials
            ++ [ProjectMaterial.preSave
                ⟨s.projectMaterials.length, s.projectId, prod.id, q, unitCostOf prod, 0,
                  s.movements.length⟩] := by
  have hwalk : (decrementWalk prod.weightPerMeter q (candidateLots s.stockItems prod.id)).1
      = q - min q (((candidateLots s.stockItems prod.id).map itemStockOf).sum) := by
    refine decrementWalk_fst prod.weightPerMeter _ q hq ?_
    intro i hi
    have hm := mem_candidateLots.mp hi
    exact itemStockOf_nonneg (hw i hm.1) hm.2.2.2
  have hpos : 0 < (decrementWalk prod.weightPerMeter q (candidateLots s.stockItems prod.id)).1 := by
    rw [hwalk, min_eq_right hshort.le]
    linarith
  refine ⟨?_, ?_⟩
  · simp only [decrementStock]
    exact decide_eq_false (not_le.mpr hpos)
  · simp only [addMaterial]
    rw [if_neg hopen, if_neg hpre]
    exact ⟨rfl, rfl, rfl, rfl⟩

/-- Claim C10 witness: one lot of weight 10, request 10.4 — within the
5% tolerance (10.5) but above the deductible 10; the call succeeds with
the full 10.4 recorded while the walk's satisfied flag is false. -/
theorem addMaterial_ignores_shortfall_witness :
    (decrementStock 0 [⟨0, 7, .FULL_BAR, 1, 6000, 10, .available⟩] 7 (52 / 5)).1 = false
    ∧ (addMaterial
          ⟨1, ⟨.active, ⟨0, 0, 0, 0⟩, ⟨0, 0, 0, 0⟩, 0, [], []⟩,
            [⟨0, 7, .FULL_BAR, 1, 6000, 10, .available⟩], [], []⟩
          ⟨7, 0, 2, 0⟩ (52 / 5)).1
        = .ok (ProjectMaterial.preSave ⟨0, 1, 7, 52 / 5, unitCostOf ⟨7, 0, 2, 0⟩, 0, 0⟩)
    ∧ (ProjectMaterial.preSave ⟨0, 1, 7, 52 / 5, unitCostOf ⟨7, 0, 2, 0⟩, 0, 0⟩).quantity = 52 / 5
    ∧ (addMaterial
          ⟨1, ⟨.active, ⟨0, 0, 0, 0⟩, ⟨0, 0, 0, 0⟩, 0, [], []⟩,
            [⟨0, 7, .FULL_BAR, 1, 6000, 10, .available⟩], [], []⟩
          ⟨7, 0, 2, 0⟩ (52 / 5)).2.movements
        = [] ++ [⟨.OUT, 7, -(52 / 5), unitCostOf ⟨7, 0, 2, 0⟩⟩]
    ∧ (addMaterial
          ⟨1, ⟨.active, ⟨0, 0, 0, 0⟩, ⟨0, 0, 0, 0⟩, 0, [], []⟩,
            [⟨0, 7, .FULL_BAR, 1, 6000, 10, .available⟩], [], []⟩
          ⟨7, 0, 2, 0⟩ (52 / 5)).2.projectMaterials
        = [] ++ [ProjectMaterial.preSave ⟨0, 1, 7, 52 / 5, unitCostOf ⟨7, 0, 2, 0⟩, 0, 0⟩] := by
  refine addMaterial_ignores_shortfall
    ⟨1, ⟨.active, ⟨0, 0, 0, 0⟩, ⟨0, 0, 0, 0⟩, 0, [], []⟩,
      [⟨0, 7, .FULL_BAR, 1, 6000, 10, .available⟩], [], []⟩
    ⟨7, 0, 2, 0⟩ (52 / 5) (by simp) ?_ ?_ (by norm_num) ?_
  · norm_num [availableStockOf, getTotalStock]
  · intro i hi
    rcases List.mem_cons.mp hi with rfl | hi
    · norm_num
    · simp at hi
  · norm_num [candidateLots, List.insertionSort, List.orderedInsert, itemStockOf]

/-- Claim C4 (code-bug exhibit): the `pre('save')` hook only recomputes
`costs.labor` when the labor-entry list is non-empty, so removing the
last labor entry leaves the aggregate stale: after adding one entry of
2 h × 25 and removing it again, the entry list is empty, the live sum is
0, yet `costs.labor` still reads 50. -/
theorem labor_cost_drift_on_empty :
    (removeLabor
        (addLabor ⟨1, ⟨.active, ⟨0, 0, 0, 0⟩, ⟨0, 0, 0, 0⟩, 0, [], []⟩, [], [], []⟩
          "w" 2 25).2 0).1 = .ok ()
    ∧ (removeLabor
        (addLabor ⟨1, ⟨.active, ⟨0, 0, 0, 0⟩, ⟨0, 0, 0, 0⟩, 0, [], []⟩, [], [], []⟩
          "w" 2 25).2 0).2.project.laborEntries = []
    ∧ (removeLabor
        (addLabor ⟨1, ⟨.active, ⟨0, 0, 0, 0⟩, ⟨0, 0, 0, 0⟩, 0, [], []⟩, [], [], []⟩
          "w" 2 25).2 0).2.project.costs.labor = 50
    ∧ (((removeLabor
        (addLabor ⟨1, ⟨.active, ⟨0, 0, 0, 0⟩, ⟨0, 0, 0, 0⟩, 0, [], []⟩, [], [], []⟩
          "w" 2 25).2 0).2.project.laborEntries.map fun e => e.hours * e.hourlyRate).sum = 0)
    ∧ (removeLabor
        (addLabor ⟨1, ⟨.active, ⟨0, 0, 0, 0⟩, ⟨0, 0, 0, 0⟩, 0, [], []⟩, [], [], []⟩
          "w" 2 25).2 0).2.project.costs.labor
      ≠ ((removeLabor
          (addLabor ⟨1, ⟨.active, ⟨0, 0, 0, 0⟩, ⟨0, 0, 0, 0⟩, 0, [], []⟩, [], [], []⟩
            "w" 2 25).2 0).2.project.laborEntries.map fun e => e.hours * e.hourlyRate).sum := by
  have hs1 : (addLabor ⟨1, ⟨.active, ⟨0, 0, 0, 0⟩, ⟨0, 0, 0, 0⟩, 0, [], []⟩, [], [], []⟩
      "w" 2 25).2
      = ⟨1, ⟨.active, ⟨0, 0, 0, 0⟩, ⟨0, 50, 0, 50⟩, 0, [⟨0, "w", 2, 25, 50⟩], []⟩,
          [], [], []⟩ := by
    simp only [addLabor]
    rw [if_neg (by decide)]
    norm_num [projectPreSave]
  rw [hs1]
  have hs2 : removeLabor
      ⟨1, ⟨.active, ⟨0, 0, 0, 0⟩, ⟨0, 50, 0, 50⟩, 0, [⟨0, "w", 2, 25, 50⟩], []⟩, [], [], []⟩ 0
      = (.ok (),
          ⟨1, ⟨.active, ⟨0, 0, 0, 0⟩, ⟨0, 50, 0, 50⟩, 0, [], []⟩, [], [], []⟩) := by
    norm_num [removeLabor, projectPreSave, List.findIdx?, List.eraseIdx]
  rw [hs2]
  norm_num

/-- Claim C6 counterexample: restoring a quantity of 5 onto a single
available full-bar lot of count 3 only increments the count to 4 — the
quantity argument is ignored, so 5 is NOT added back to the stock. -/
theorem restoreStock_ignores_quantity_cex :
    restoreStock 0 [⟨0, 7, .FULL_BAR, 3, 6000, 0, .available⟩] 7 5
      = [⟨0, 7, .FULL_BAR, 4, 6000, 0, .available⟩]
    ∧ fullBarQtySum (restoreStock 0 [⟨0, 7, .FULL_BAR, 3, 6000, 0, .available⟩] 7 5) 7
        ≠ fullBarQtySum [⟨0, 7, .FULL_BAR, 3, 6000, 0, .available⟩] 7 + 5 := by
  constructor <;>
    norm_num [restoreStock, restoreCond, fullBarQtySum, StockItem.calculateWeight, List.find?]

/-- Claim C6, amended: `restoreStock` adds exactly ONE full bar — it
increments an existing available full-bar lot's piece count by 1, or
creates a new full-bar lot with count 1 — and ignores the requested
quantity entirely (it neither adds the quantity back nor reconstructs
the original lot composition). -/
theorem restoreStock_adds_one_full_bar (wpm : ℚ) (items : List StockItem) (pid : ℕ) (q q' : ℚ)
    (hnodup : (items.map (·.id)).Nodup) :
    restoreStock wpm items pid q = restoreStock wpm items pid q'
    ∧ fullBarQtySum (restoreStock wpm items pid q) pid = fullBarQtySum items pid + 1 := by
  refine ⟨rfl, ?_⟩
  unfold restoreStock
  cases hfind : items.find? (restoreCond pid) with
  | some it =>
    have hcond : restoreCond pid it = true := List.find?_some hfind
    have hmem : it ∈ items := List.mem_of_find?_eq_some hfind
    have hcond1 :
        restoreCond pid
          (StockItem.calculateWeight wpm { it with quantity := it.quantity + 1 }) = true := by
      rw [restoreCond_calculateWeight]
      exact hcond
    have hq1 :
        (StockItem.calculateWeight wpm { it with quantity := it.quantity + 1 }).quantity
          = it.quantity + 1 := StockItem.calculateWeight_quantity ..
    rw [fullBarQtySum_replace pid items it _ hnodup hmem hcond hcond1, hq1]
    ring
  | none =>
    have hcondNew : restoreCond pid (StockItem.calculateWeight wpm
        ⟨freshId items, pid, .FULL_BAR, 1, 6000, 0, .available⟩) = true := by
      rw [restoreCond_calculateWeight]
      simp [restoreCond]
    unfold fullBarQtySum
    rw [List.filter_append]
    simp [List.filter_cons, hcondNew, StockItem.calculateWeight_quantity]

/-- Claim C6 amended-claim witness: with one full-bar lot of count 3,
restoring 5 and restoring 9 produce the same result, and the full-bar
piece count rises by exactly 1. -/
theorem restoreStock_adds_one_full_bar_witness :
    restoreStock 0 [⟨0, 7, .FULL_BAR, 3, 6000, 0, .available⟩] 7 5
      = restoreStock 0 [⟨0, 7, .FULL_BAR, 3, 6000, 0, .available⟩] 7 9
    ∧ fullBarQtySum (restoreStock 0 [⟨0, 7, .FULL_BAR, 3, 6000, 0, .available⟩] 7 5) 7
        = fullBarQtySum [⟨0, 7, .FULL_BAR, 3, 6000, 0, .available⟩] 7 + 1 :=
  restoreStock_adds_one_full_bar 0 [⟨0, 7, .FULL_BAR, 3, 6000, 0, .available⟩] 7 5 9 (by simp)

/-- Claim C3: for every supported shape with positive density, the
weight function equals the specification's
`volume(cm³) × density(g/cm³) / 1000` rounded to 2 decimal places, with
rounding applied only at the mass result — the volume passed to the
rounding step is the exact per-shape formula. -/
theorem getWeight_matches_spec (shape : String) (dims : Dimensions) (lengthMm density : ℝ)
    (materialType : String) (hρ : 0 < density)
    (hs : shape = "round" ∨ shape = "hex" ∨ shape = "tube" ∨ shape = "plate" ∨ shape = "box") :
    getWeight shape dims lengthMm density materialType
      = .ok (round2R (specVolumeCm3 shape dims lengthMm * density / 1000)) := by
  have hne : ¬(density = 0) := ne_of_gt hρ
  rcases hs with h | h | h | h | h <;> subst h
  · have hv : volumeRoundBar dims.d lengthMm = specVolumeCm3 "round" dims lengthMm := by
      simp [volumeRoundBar, specVolumeCm3, mmToCm]
    simp [getWeight, hne, hv, calculateWeight, round2R]
  · have hv : volumeHex dims.d lengthMm = specVolumeCm3 "hex" dims lengthMm := by
      simp [volumeHex, specVolumeCm3, mmToCm]
    simp [getWeight, hne, hv, calculateWeight, round2R]
  · have hv : volumeTube dims.d dims.wall lengthMm = specVolumeCm3 "tube" dims lengthMm := by
      simp only [specVolumeCm3]
      rw [if_neg (by decide), if_neg (by decide)]
      simp only [if_true]
      simp only [volumeTube, mmToCm]
      ring
    simp [getWeight, hne, hv, calculateWeight, round2R]
  · have hv : volumeRectangular dims.w dims.h lengthMm = specVolumeCm3 "plate" dims lengthMm := by
      simp [volumeRectangular, specVolumeCm3, mmToCm]
    simp [getWeight, hne, hv, calculateWeight, round2R]
  · have hv : volumeRectangular dims.w dims.h lengthMm = specVolumeCm3 "box" dims lengthMm := by
      simp [volumeRectangular, specVolumeCm3, mmToCm]
    simp [getWeight, hne, hv, calculateWeight, round2R]

/-- Claim C3 witness: a round bar, diameter 50 mm, length 1000 mm,
density 7.85 g/cm³ weighs exactly 15.41 kg after 2-decimal rounding. -/
theorem getWeight_matches_spec_witness :
    (0 : ℝ) < 7.85 ∧
    getWeight "round" ⟨50, 0, 0, 0⟩ 1000 7.85 "steel" = .ok 15.41 := by
  refine ⟨by norm_num, ?_⟩
  rw [getWeight_matches_spec "round" ⟨50, 0, 0, 0⟩ 1000 7.85 "steel" (by norm_num) (Or.inl rfl)]
  have hspec : specVolumeCm3 "round" ⟨50, 0, 0, 0⟩ 1000 = Real.pi * 625 := by
    simp only [specVolumeCm3, if_pos rfl]
    norm_num
    ring
  rw [hspec]
  have hfloor : ⌊(Real.pi * 625 * 7.85 / 1000 * 100 + 1 / 2 : ℝ)⌋ = 1541 := by
    have h1 := Real.pi_gt_d6
    have h2 := Real.pi_lt_d6
    rw [Int.floor_eq_iff]
    constructor
    · push_cast
      nlinarith [h1]
    · push_cast
      nlinarith [h2]
  simp only [round2R, jsRoundR]
  rw [hfloor]
  norm_num

/-- Claim C8: the inverse length computation round-trips: for a round
bar with positive diameter, length and density,
`lengthFromWeight (weight d L ρ) d ρ` differs from `L` by at most the
tolerance induced by the 2-decimal rounding of the mass
(`20000 / (ρ·π·d²)` mm) plus the half-millimeter rounding of the
returned length. -/
theorem lengthFromWeight_roundtrip (d L ρ : ℝ) (hd : 0 < d) (hL : 0 < L) (hρ : 0 < ρ) :
    |lengthFromWeight (calculateWeight (volumeRoundBar d L) ρ) d ρ - L|
      ≤ 20000 / (ρ * Real.pi * d ^ 2) + 1 / 2 := by
  have hπ := Real.pi_pos
  have hA0 : (0 : ℝ) < Real.pi * (d / 10 / 2) ^ 2 := by positivity
  obtain ⟨W, hW⟩ : ∃ W, calculateWeight (volumeRoundBar d L) ρ = W := ⟨_, rfl⟩
  have hWlo : Real.pi * (d / 10 / 2) ^ 2 * (L / 10) * ρ / 1000 - 1 / 200 < W := by
    rw [← hW]
    simp only [calculateWeight, jsRoundR, volumeRoundBar, mmToCm]
    have h := Int.lt_floor_add_one
      (Real.pi * (d / 10 / 2) ^ 2 * (L / 10) * ρ / 1000 * 100 + 1 / 2)
    linarith
  have hWhi : W ≤ Real.pi * (d / 10 / 2) ^ 2 * (L / 10) * ρ / 1000 + 1 / 200 := by
    rw [← hW]
    simp only [calculateWeight, jsRoundR, volumeRoundBar, mmToCm]
    have h := Int.floor_le
      (Real.pi * (d / 10 / 2) ^ 2 * (L / 10) * ρ / 1000 * 100 + 1 / 2)
    linarith
  have hrle : lengthFromWeight W d ρ
      ≤ W * 1000 / ρ / (Real.pi * (d / 10 / 2) ^ 2) * 10 + 1 / 2 := by
    simp only [lengthFromWeight, jsRoundR, mmToCm]
    exact Int.floor_le _
  have hrgt : W * 1000 / ρ / (Real.pi * (d / 10 / 2) ^ 2) * 10 - 1 / 2
      < lengthFromWeight W d ρ := by
    simp only [lengthFromWeight, jsRoundR, mmToCm]
    have h := Int.lt_floor_add_one
      (W * 1000 / ρ / (Real.pi * (d / 10 / 2) ^ 2) * 10 + 1 / 2)
    linarith
  have hexp : W * 1000 / ρ / (Real.pi * (d / 10 / 2) ^ 2) * 10 - L
      = (W - Real.pi * (d / 10 / 2) ^ 2 * (L / 10) * ρ / 1000)
          * (10000 / (ρ * (Real.pi * (d / 10 / 2) ^ 2))) := by
    field_simp
    ring
  have hxL : |W * 1000 / ρ / (Real.pi * (d / 10 / 2) ^ 2) * 10 - L|
      ≤ 50 / (ρ * (Real.pi * (d / 10 / 2) ^ 2)) := by
    rw [hexp, abs_mul]
    have habs : |W - Real.pi * (d / 10 / 2) ^ 2 * (L / 10) * ρ / 1000| ≤ 1 / 200 := by
      rw [abs_le]
      constructor <;> linarith
    have hpos2 : (0 : ℝ) < 10000 / (ρ * (Real.pi * (d / 10 / 2) ^ 2)) := by positivity
    rw [abs_of_pos hpos2]
    calc |W - Real.pi * (d / 10 / 2) ^ 2 * (L / 10) * ρ / 1000|
          * (10000 / (ρ * (Real.pi * (d / 10 / 2) ^ 2)))
        ≤ (1 / 200) * (10000 / (ρ * (Real.pi * (d / 10 / 2) ^ 2))) :=
          mul_le_mul_of_nonneg_right habs hpos2.le
      _ = 50 / (ρ * (Real.pi * (d / 10 / 2) ^ 2)) := by ring
  have hrx : |lengthFromWeight W d ρ
      - W * 1000 / ρ / (Real.pi * (d / 10 / 2) ^ 2) * 10| ≤ 1 / 2 := by
    rw [abs_le]
    constructor <;> linarith
  have htri : |lengthFromWeight W d ρ - L|
      ≤ |lengthFromWeight W d ρ - W * 1000 / ρ / (Real.pi * (d / 10 / 2) ^ 2) * 10|
        + |W * 1000 / ρ / (Real.pi * (d / 10 / 2) ^ 2) * 10 - L| := abs_sub_le _ _ _
  have heq : 50 / (ρ * (Real.pi * (d / 10 / 2) ^ 2)) = 20000 / (ρ * Real.pi * d ^ 2) := by
    rw [div_eq_div_iff (by positivity) (by positivity)]
    ring
  rw [hW]
  linarith [htri, hrx, hxL, heq.le, heq.ge]

/-- Claim C8 witness: the round trip at diameter 50 mm, length 1000 mm,
density 7.85 g/cm³. -/
theorem lengthFromWeight_roundtrip_witness :
    (0 : ℝ) < 50 ∧ (0 : ℝ) < 1000 ∧ (0 : ℝ) < 7.85 ∧
    |lengthFromWeight (calculateWeight (volumeRoundBar 50 1000) 7.85) 50 7.85 - 1000|
      ≤ 20000 / (7.85 * Real.pi * 50 ^ 2) + 1 / 2 :=
  ⟨by norm_num, by norm_num, by norm_num,
    lengthFromWeight_roundtrip 50 1000 7.85 (by norm_num) (by norm_num) (by norm_num)⟩

end MetalStock
